import Mathlib

/-!
Shallow embedding of the live-chat-room server core (src/p1gxS.c and
src/protocol.h).  C strings are modelled as lists of characters (for the
ASCII data handled by this protocol, one character corresponds to one
byte); fixed-size C arrays paired with a count are modelled as Lean
lists; fallible C functions returning -1/0 are modelled either with an
explicit Int result or with Option.
-/

namespace ChatRoom

/-- A C string (NUL-terminated byte buffer), modelled as a character list. -/
abbrev CStr := List Char

/-! ### Configuration constants (protocol.h lines 20-24, 278) -/

def MAX_USERNAME : Nat := 32
def MAX_MESSAGE : Nat := 256
def MAX_CLIENTS : Nat := 50
def BUFFER_SIZE : Nat := 1024
def QUEUE_SIZE : Nat := 100

/-! ### Message type and response code strings (protocol.h lines 30-45) -/

def MSG_TYPE_AUTH : CStr := "AUTH".data
def MSG_TYPE_MESSAGE : CStr := "MSG".data
def MSG_TYPE_NOTIFY : CStr := "NOTIFY".data
def MSG_TYPE_ERROR : CStr := "ERROR".data
def MSG_TYPE_DISCONNECT : CStr := "DISCONNECT".data

def AUTH_OK : CStr := "AUTH_OK".data
def AUTH_FAILED : CStr := "AUTH_FAILED:Username already taken".data
def AUTH_FAILED_INVALID : CStr := "AUTH_FAILED:Invalid username".data
def SERVER_FULL : CStr := "ERROR:Server is full".data
def DISCONNECT_ACK : CStr := "DISCONNECT_ACK".data

/-! ### message_t (protocol.h lines 51-55) -/

/-- `message_t`: type is a 16-byte buffer, sender a 32-byte buffer,
content a 256-byte buffer; as C strings. -/
structure Message where
  type : CStr
  sender : CStr
  content : CStr
deriving DecidableEq, Repr, Inhabited

/-! ### Formatting helpers (protocol.h lines 110-153); snprintf writes at
most BUFFER_SIZE - 1 characters. -/

def format_chat_message (sender content : CStr) : CStr :=
  ("MSG:".data ++ sender ++ [':'] ++ content ++ ['\n']).take (BUFFER_SIZE - 1)

def format_notification (notification : CStr) : CStr :=
  ("NOTIFY:".data ++ notification ++ ['\n']).take (BUFFER_SIZE - 1)

def format_error_message (error : CStr) : CStr :=
  ("ERROR:".data ++ error ++ ['\n']).take (BUFFER_SIZE - 1)

/-! ### parse_message (protocol.h lines 161-219) -/

/-- One `strtok(_, ":")` step: skip leading ':' delimiters; if nothing
remains, NULL (none); otherwise return the token (up to the next ':' or
the end) and the remainder after the consumed delimiter. -/
def strtokColon (s : CStr) : Option (CStr × CStr) :=
  let s := s.dropWhile (fun c => c = ':')
  if s = [] then none
  else some (s.takeWhile (fun c => c ≠ ':'), (s.dropWhile (fun c => c ≠ ':')).drop 1)

/-- `strtok(NULL, "")`: with an empty delimiter set, return the whole
remainder unless it is empty. -/
def strtokRest (s : CStr) : Option (CStr × CStr) :=
  if s = [] then none else some (s, [])

/-- Drop one trailing newline, as `parse_message` does on its buffer copy. -/
def chopNewline (s : CStr) : CStr :=
  if s.getLast? = some '\n' then s.dropLast else s

/-- `parse_message`: copies at most BUFFER_SIZE - 1 bytes of the input,
strips one trailing newline, tokenises on ':' and fills a zeroed
`message_t`, truncating type to 15, sender to MAX_USERNAME - 1 and
content to MAX_MESSAGE - 1 bytes.  Returns none for -1 (parse error). -/
def parse_message (raw_message : CStr) : Option Message :=
  let buffer := chopNewline (raw_message.take (BUFFER_SIZE - 1))
  match strtokColon buffer with
  | none => none
  | some (token, rest1) =>
    let ty := token.take 15
    if ty = MSG_TYPE_AUTH then
      match strtokColon rest1 with
      | none => none
      | some (sender, _) => some ⟨ty, sender.take (MAX_USERNAME - 1), []⟩
    else if ty = MSG_TYPE_MESSAGE then
      match strtokColon rest1 with
      | none => none
      | some (sender, rest2) =>
        match strtokRest rest2 with
        | none => none
        | some (content, _) =>
          some ⟨ty, sender.take (MAX_USERNAME - 1), content.take (MAX_MESSAGE - 1)⟩
    else if ty = MSG_TYPE_NOTIFY then
      match strtokRest rest1 with
      | none => none
      | some (content, _) => some ⟨ty, [], content.take (MAX_MESSAGE - 1)⟩
    else if ty = MSG_TYPE_ERROR then
      match strtokRest rest1 with
      | none => none
      | some (content, _) => some ⟨ty, [], content.take (MAX_MESSAGE - 1)⟩
    else if ty = MSG_TYPE_DISCONNECT then
      match strtokColon rest1 with
      | none => none
      | some (sender, _) => some ⟨ty, sender.take (MAX_USERNAME - 1), []⟩
    else
      some ⟨ty, [], []⟩

/-! ### validate_username (protocol.h lines 226-246) and
validate_message_content (protocol.h lines 253-262) -/

/-- The character test in `validate_username`'s loop: ASCII lowercase,
uppercase, digit, or underscore. -/
def is_allowed_char (c : Char) : Bool :=
  ('a' ≤ c && c ≤ 'z') || ('A' ≤ c && c ≤ 'Z') || ('0' ≤ c && c ≤ '9') || (c = '_')

/-- `validate_username` on a non-NULL argument: length in
[1, MAX_USERNAME - 1] and every character alphanumeric or underscore. -/
def validate_username (username : CStr) : Bool :=
  if username.length = 0 || MAX_USERNAME ≤ username.length then false
  else username.all is_allowed_char

/-- `validate_username` including the NULL guard (`none` models NULL). -/
def validate_username_c : Option CStr → Bool
  | none => false
  | some username => validate_username username

/-- `validate_message_content` on a non-NULL argument: length in
[1, MAX_MESSAGE - 1]. -/
def validate_message_content (content : CStr) : Bool :=
  if content.length = 0 || MAX_MESSAGE ≤ content.length then false
  else true

/-! ### client_info_t (protocol.h lines 268-272), registry operations
(p1gxS.c lines 73-132).  The C pair (clients array, client_count) is the
list of its first client_count entries. -/

structure client_info_t where
  socket_fd : Int
  username : CStr
  authenticated : Int
deriving DecidableEq, Repr, Inhabited

/-- `add_client`: if the registry is at MAX_CLIENTS, return -1 and leave
it unchanged; otherwise append an entry (username truncated to
MAX_USERNAME - 1 bytes by strncpy plus a forced NUL) and return 0. -/
def add_client (clients : List client_info_t) (socket_fd : Int) (username : CStr) :
    Int × List client_info_t :=
  if MAX_CLIENTS ≤ clients.length then (-1, clients)
  else (0, clients ++ [⟨socket_fd, username.take (MAX_USERNAME - 1), 1⟩])

/-- `remove_client`: shift-delete the first entry whose socket matches,
if any (the loop breaks after the first match). -/
def remove_client (clients : List client_info_t) (socket_fd : Int) : List client_info_t :=
  match clients with
  | [] => []
  | c :: rest =>
    if c.socket_fd = socket_fd then rest else c :: remove_client rest socket_fd

/-- `username_exists`: linear scan with strcmp. -/
def username_exists (clients : List client_info_t) (username : CStr) : Bool :=
  clients.any (fun c => c.username = username)

/-! ### message_queue_t (protocol.h lines 280-345).  The circular buffer
`messages` is a fixed 100-element array, modelled as a list of length
QUEUE_SIZE. -/

structure message_queue_t where
  messages : List Message
  head : Nat
  tail : Nat
  count : Nat
deriving DecidableEq, Repr

/-- `init_message_queue`: reset the indices, leaving the array contents. -/
def init_message_queue (queue : message_queue_t) : message_queue_t :=
  { queue with head := 0, tail := 0, count := 0 }

def is_queue_empty (queue : message_queue_t) : Bool :=
  queue.count = 0

def is_queue_full (queue : message_queue_t) : Bool :=
  QUEUE_SIZE ≤ queue.count

/-- `enqueue_message`: -1 (queue unchanged) when full; else write at
head, advance head mod QUEUE_SIZE, bump count, return 0. -/
def enqueue_message (queue : message_queue_t) (msg : Message) : Int × message_queue_t :=
  if is_queue_full queue then (-1, queue)
  else
    (0, { messages := queue.messages.set queue.head msg,
          head := (queue.head + 1) % QUEUE_SIZE,
          tail := queue.tail,
          count := queue.count + 1 })

/-- `dequeue_message`: none models the -1 return on an empty queue (the
queue and the out-parameter are untouched); otherwise read at tail,
advance tail mod QUEUE_SIZE, drop count. -/
def dequeue_message (queue : message_queue_t) : Option (Message × message_queue_t) :=
  if is_queue_empty queue then none
  else
    some (queue.messages.getD queue.tail default,
          { messages := queue.messages,
            head := queue.head,
            tail := (queue.tail + 1) % QUEUE_SIZE,
            count := queue.count - 1 })

/-! ### handle_client, authentication section (p1gxS.c lines 236-291) -/

/-- Outcome of the authentication section of `handle_client`. -/
inductive AuthResult where
  | invalidFormat
  | invalidUsername
  | duplicate
  | serverFull
  | ok (username : CStr)
deriving DecidableEq, Repr

def AuthResult.isFailure : AuthResult → Bool
  | .ok _ => false
  | _ => true

/-- The authentication section of `handle_client`: parse the first read
buffer, require an AUTH frame, validate the username, check for a
duplicate, then `add_client`.  Returns the outcome, the registry
afterwards, and the response frame written back to this client.  Each
failure path leaves the registry as it was and closes the socket. -/
def auth_step (clients : List client_info_t) (client_socket : Int) (buffer : CStr) :
    AuthResult × List client_info_t × CStr :=
  match parse_message buffer with
  | none => (.invalidFormat, clients, format_error_message "Invalid authentication format".data)
  | some auth_msg =>
    if auth_msg.type ≠ MSG_TYPE_AUTH then
      (.invalidFormat, clients, format_error_message "Invalid authentication format".data)
    else if ¬ validate_username auth_msg.sender then
      (.invalidUsername, clients, AUTH_FAILED_INVALID ++ ['\n'])
    else if username_exists clients auth_msg.sender then
      (.duplicate, clients, AUTH_FAILED ++ ['\n'])
    else
      let username := auth_msg.sender.take (MAX_USERNAME - 1)
      let r := add_client clients client_socket username
      if r.1 ≠ 0 then (.serverFull, clients, SERVER_FULL ++ ['\n'])
      else (.ok username, r.2, AUTH_OK ++ ['\n'])

/-! ### handle_client, authenticated message loop and cleanup
(p1gxS.c lines 305-359) -/

/-- The chat-frame branch (p1gxS.c lines 321-335): overwrite the parsed
sender with the handler's authenticated username (strncpy of at most
MAX_USERNAME - 1 bytes over the NUL-padded sender buffer), then try to
enqueue; a full queue is only logged, leaving the queue unchanged. -/
def handle_chat_frame (username : CStr) (queue : message_queue_t) (msg : Message) :
    message_queue_t :=
  let msg := { msg with sender := username.take (MAX_USERNAME - 1) }
  (enqueue_message queue msg).2

/-- An observable output of the post-authentication part of a handler:
a frame written only to this handler's client, or a frame written to
every socket currently in the registry (`broadcast_notification`,
p1gxS.c lines 137-148, which records the recipients it locked over). -/
inductive ServerEvent where
  | toClient (frame : CStr)
  | broadcast (recipients : List Int) (frame : CStr)
deriving DecidableEq, Repr

/-- The cleanup section (p1gxS.c lines 349-359): broadcast the leave
notification to every registered client (the departing client is still
registered at this point), then remove this client's entry and close the
socket.  Nothing is written to the departing client alone. -/
def client_cleanup (client_socket : Int) (username : CStr)
    (clients : List client_info_t) (queue : message_queue_t) :
    List ServerEvent × List client_info_t × message_queue_t :=
  ([ServerEvent.broadcast (clients.map client_info_t.socket_fd)
      (format_notification (username ++ " left the chat".data))],
   remove_client clients client_socket, queue)

/-- The authenticated receive loop (p1gxS.c lines 305-347) followed by
cleanup, driven by the successive read results: a read of 0 (the end of
the input list) or a DISCONNECT frame ends the loop; a MSG frame goes
through `handle_chat_frame`; anything else (parse failure or another
frame type) is ignored. -/
def client_loop (client_socket : Int) (username : CStr)
    (clients : List client_info_t) (queue : message_queue_t) :
    List CStr → List ServerEvent × List client_info_t × message_queue_t
  | [] => client_cleanup client_socket username clients queue
  | buffer :: rest =>
    match parse_message buffer with
    | some msg =>
      if msg.type = MSG_TYPE_MESSAGE then
        client_loop client_socket username clients (handle_chat_frame username queue msg) rest
      else if msg.type = MSG_TYPE_DISCONNECT then
        client_cleanup client_socket username clients queue
      else
        client_loop client_socket username clients queue rest
    | none => client_loop client_socket username clients queue rest

/-! ### Sequential registry operation sequences (for reachability) -/

/-- A registry-mutating event in the server's lifetime: one connection's
authentication attempt, or one handler's disconnect cleanup. -/
inductive RegistryOp where
  | auth (socket_fd : Int) (buffer : CStr)
  | disconnect (socket_fd : Int)

def run_registry_op (clients : List client_info_t) : RegistryOp → List client_info_t
  | .auth socket_fd buffer => (auth_step clients socket_fd buffer).2.1
  | .disconnect socket_fd => remove_client clients socket_fd

/-- Run a sequence of registry operations from a starting state.  The
server starts with `client_count = 0`, i.e. the empty list. -/
def run_registry_ops (clients : List client_info_t) (ops : List RegistryOp) :
    List client_info_t :=
  ops.foldl run_registry_op clients

/-! ### Queue operation sequences -/

inductive QueueOp where
  | enq (msg : Message)
  | deq

def run_queue_op (queue : message_queue_t) : QueueOp → message_queue_t
  | .enq msg => (enqueue_message queue msg).2
  | .deq =>
    match dequeue_message queue with
    | none => queue
    | some (_, queue') => queue'

def run_queue_ops (queue : message_queue_t) (ops : List QueueOp) : message_queue_t :=
  ops.foldl run_queue_op queue

/-- Enqueue a list of messages in order; none if any enqueue reports a
full queue. -/
def enqueue_all (queue : message_queue_t) : List Message → Option message_queue_t
  | [] => some queue
  | msg :: rest =>
    let r := enqueue_message queue msg
    if r.1 = 0 then enqueue_all r.2 rest else none

/-- Dequeue `n` messages in order; none if the queue empties early. -/
def drain (queue : message_queue_t) : Nat → Option (List Message)
  | 0 => some []
  | n + 1 =>
    match dequeue_message queue with
    | none => none
    | some (msg, queue') => (drain queue' n).map (msg :: ·)

/-- The abstract FIFO contents of the circular buffer: `count` messages
starting at `tail`, wrapping mod QUEUE_SIZE. -/
def queue_to_list (queue : message_queue_t) : List Message :=
  (List.range queue.count).map
    (fun i => queue.messages.getD ((queue.tail + i) % QUEUE_SIZE) default)

/-- Well-formedness of the circular buffer, established by
`init_message_queue` and preserved by the queue operations. -/
def QueueWF (queue : message_queue_t) : Prop :=
  queue.messages.length = QUEUE_SIZE ∧ queue.tail < QUEUE_SIZE ∧
    queue.count ≤ QUEUE_SIZE ∧ queue.head = (queue.tail + queue.count) % QUEUE_SIZE

/-! ### The two critical sections of registration, as interleavable
atomic steps (p1gxS.c: `username_exists` locks and unlocks
`clients_mutex` on lines 121-131, then `add_client` locks it again on
lines 74-89; `handle_client` calls them back to back on lines 262-285).
Each locked section is one atomic step of a handler thread. -/

inductive AuthPhase where
  | toCheck
  | toInsert
  | done (success : Bool)
deriving DecidableEq, Repr

structure AuthThread where
  fd : Int
  uname : CStr
  phase : AuthPhase
deriving DecidableEq, Repr

/-- Execute one critical section of one handler thread that has already
validated its username: first `username_exists` (on failure the handler
replies AUTH_FAILED and returns), then `add_client`. -/
def thread_step (clients : List client_info_t) (t : AuthThread) :
    List client_info_t × AuthThread :=
  match t.phase with
  | .toCheck =>
    if username_exists clients t.uname then (clients, { t with phase := .done false })
    else (clients, { t with phase := .toInsert })
  | .toInsert =>
    let r := add_client clients t.fd (t.uname.take (MAX_USERNAME - 1))
    (r.2, { t with phase := .done (r.1 = 0) })
  | .done _ => (clients, t)

/-- Run an interleaving: the schedule names, step by step, which thread
executes its next critical section. -/
def run_sched (clients : List client_info_t) (threads : List AuthThread) :
    List Nat → List client_info_t × List AuthThread
  | [] => (clients, threads)
  | i :: rest =>
    match threads[i]? with
    | none => run_sched clients threads rest
    | some t =>
      let r := thread_step clients t
      run_sched r.1 (threads.set i r.2) rest

/-- The zero-initialised global queue after `init_message_queue`
(p1gxS.c lines 35, 382): a 100-slot array with all indices zero. -/
def initial_queue : message_queue_t :=
  init_message_queue ⟨List.replicate QUEUE_SIZE default, 0, 0, 0⟩

/-! ## Helper lemmas -/

theorem is_allowed_char_iff (c : Char) :
    is_allowed_char c = true ↔
      ('a' ≤ c ∧ c ≤ 'z') ∨ ('A' ≤ c ∧ c ≤ 'Z') ∨ ('0' ≤ c ∧ c ≤ '9') ∨ c = '_' := by
  simp [is_allowed_char, or_assoc]

theorem validate_username_iff (u : CStr) :
    validate_username u = true ↔
      u ≠ [] ∧ u.length ≤ MAX_USERNAME - 1 ∧ ∀ c ∈ u, is_allowed_char c = true := by
  have h32 : MAX_USERNAME = 32 := rfl
  unfold validate_username
  split_ifs with h
  · simp only [Bool.or_eq_true, decide_eq_true_eq] at h
    simp only [Bool.false_eq_true, false_iff, not_and]
    rintro h1 h2 -
    rcases h with h | h
    · exact h1 (List.length_eq_zero.1 h)
    · rw [h32] at h h2
      omega
  · simp only [Bool.or_eq_true, decide_eq_true_eq, not_or] at h
    simp only [List.all_eq_true]
    rw [h32] at h ⊢
    refine ⟨fun hall => ⟨fun hnil => h.1 (by simp [hnil]), by omega, hall⟩,
      fun hx => hx.2.2⟩

/-- A validated username fits in the MAX_USERNAME buffer, so the strncpy
truncation to MAX_USERNAME - 1 bytes is the identity on it. -/
theorem take_of_validate {u : CStr} (h : validate_username u = true) :
    u.take (MAX_USERNAME - 1) = u := by
  exact List.take_of_length_le ((validate_username_iff u).1 h).2.1

theorem remove_client_sublist (clients : List client_info_t) (fd : Int) :
    (remove_client clients fd).Sublist clients := by
  induction clients with
  | nil => simp [remove_client]
  | cons c rest ih =>
    unfold remove_client
    by_cases h : c.socket_fd = fd
    · simp only [h, if_true]
      exact List.sublist_cons_self c rest
    · simp only [h, if_false]
      exact ih.cons₂ c

theorem remove_client_of_not_mem {clients : List client_info_t} {fd : Int}
    (h : fd ∉ clients.map client_info_t.socket_fd) : remove_client clients fd = clients := by
  induction clients with
  | nil => rfl
  | cons c rest ih =>
    simp only [List.map_cons, List.mem_cons, not_or] at h
    rw [remove_client, if_neg (fun hc => h.1 hc.symm), ih h.2]

/-! ## C6 -/

/-- C6: `validate_username` returns 1 exactly when the input is
non-NULL, non-empty, at most MAX_USERNAME - 1 = 31 bytes long, and every
character is an ASCII letter, digit, or underscore; every other input
(NULL, empty, too long, or containing a disallowed character) yields 0. -/
theorem C6_validate_username_correct (o : Option CStr) :
    validate_username_c o = true ↔
      ∃ u, o = some u ∧ u ≠ [] ∧ u.length ≤ MAX_USERNAME - 1 ∧
        ∀ c ∈ u, ('a' ≤ c ∧ c ≤ 'z') ∨ ('A' ≤ c ∧ c ≤ 'Z') ∨
          ('0' ≤ c ∧ c ≤ '9') ∨ c = '_' := by
  cases o with
  | none => simp [validate_username_c]
  | some u =>
    simp only [validate_username_c, Option.some.injEq]
    rw [validate_username_iff]
    constructor
    · intro ⟨h1, h2, h3⟩
      exact ⟨u, rfl, h1, h2, fun c hc => (is_allowed_char_iff c).1 (h3 c hc)⟩
    · intro ⟨v, hv, h1, h2, h3⟩
      cases hv
      exact ⟨h1, h2, fun c hc => (is_allowed_char_iff c).2 (h3 c hc)⟩

/-! ## C3 -/

/-- C3: every failed authentication path leaves the registry unchanged:
`add_client` at capacity returns -1 with the registry unmodified; any
auth failure leaves the registry as it was; the invalid-username,
duplicate-username and server-full rejections each send their specific
failure frame. -/
theorem C3_failed_auth_no_mutation :
    (∀ clients fd u, clients.length = MAX_CLIENTS → add_client clients fd u = (-1, clients)) ∧
    (∀ clients fd buf, (auth_step clients fd buf).1.isFailure = true →
        (auth_step clients fd buf).2.1 = clients) ∧
    (∀ clients fd buf m, parse_message buf = some m → m.type = MSG_TYPE_AUTH →
        validate_username m.sender = false →
        auth_step clients fd buf =
          (.invalidUsername, clients, AUTH_FAILED_INVALID ++ ['\n'])) ∧
    (∀ clients fd buf m, parse_message buf = some m → m.type = MSG_TYPE_AUTH →
        validate_username m.sender = true → username_exists clients m.sender = true →
        auth_step clients fd buf = (.duplicate, clients, AUTH_FAILED ++ ['\n'])) ∧
    (∀ clients fd buf m, clients.length = MAX_CLIENTS →
        parse_message buf = some m → m.type = MSG_TYPE_AUTH →
        validate_username m.sender = true → username_exists clients m.sender = false →
        auth_step clients fd buf = (.serverFull, clients, SERVER_FULL ++ ['\n'])) := by
  refine ⟨?_, ?_, ?_, ?_, ?_⟩
  · intro clients fd u h
    simp [add_client, h]
  · intro clients fd buf h
    unfold auth_step at *
    cases hp : parse_message buf with
    | none => simp [hp]
    | some m =>
      simp only [hp] at h ⊢
      by_cases h1 : m.type ≠ MSG_TYPE_AUTH
      · simp [h1]
      · by_cases h2 : validate_username m.sender
        · by_cases h3 : username_exists clients m.sender
          · simp [h1, h2, h3]
          · by_cases h4 : (add_client clients fd (m.sender.take (MAX_USERNAME - 1))).1 ≠ 0
            · simp [h1, h2, h3, h4]
            · simp only [h1, h2, h3, h4] at h
              simp [AuthResult.isFailure] at h
        · simp [h1, h2]
  · intro clients fd buf m hp ht hv
    unfold auth_step
    simp [hp, ht, hv]
  · intro clients fd buf m hp ht hv hx
    unfold auth_step
    simp [hp, ht, hv, hx]
  · intro clients fd buf m hlen hp ht hv hx
    unfold auth_step
    simp [hp, ht, hv, hx, add_client, hlen]

/-! ## C4 -/

/-- C4: the chat path overwrites the client-supplied sender with the
handler's authenticated username before enqueueing, so the enqueued
message's sender equals the authenticated username, and two chat frames
differing only in their sender field produce identical results. -/
theorem C4_sender_overwrite :
    (∀ u queue msg, validate_username u = true →
        handle_chat_frame u queue msg = (enqueue_message queue { msg with sender := u }).2) ∧
    (∀ u queue m₁ m₂, m₁.type = m₂.type → m₁.content = m₂.content →
        handle_chat_frame u queue m₁ = handle_chat_frame u queue m₂) := by
  constructor
  · intro u queue msg hv
    unfold handle_chat_frame
    rw [take_of_validate hv]
  · intro u queue m₁ m₂ ht hc
    unfold handle_chat_frame
    cases m₁
    cases m₂
    simp_all

/-- Witness for C4 at concrete inputs. -/
theorem C4_sender_overwrite_witness :
    validate_username "alice".data = true ∧
    handle_chat_frame "alice".data initial_queue
        ⟨MSG_TYPE_MESSAGE, "evil".data, "hi".data⟩ =
      (enqueue_message initial_queue
        ⟨MSG_TYPE_MESSAGE, "alice".data, "hi".data⟩).2 ∧
    handle_chat_frame "alice".data initial_queue ⟨MSG_TYPE_MESSAGE, "evil".data, "hi".data⟩ =
      handle_chat_frame "alice".data initial_queue
        ⟨MSG_TYPE_MESSAGE, "mallory".data, "hi".data⟩ :=
  ⟨by decide,
   C4_sender_overwrite.1 "alice".data initial_queue
     ⟨MSG_TYPE_MESSAGE, "evil".data, "hi".data⟩ (by decide),
   C4_sender_overwrite.2 "alice".data initial_queue
     ⟨MSG_TYPE_MESSAGE, "evil".data, "hi".data⟩
     ⟨MSG_TYPE_MESSAGE, "mallory".data, "hi".data⟩ rfl rfl⟩

/-! ## C7 -/

/-- C7: in a registry where each socket fd appears in at most one entry,
removing an absent fd is a no-op, and removing the same fd twice leaves
the registry exactly as removing it once. -/
theorem C7_unregister_idempotent (clients : List client_info_t) (fd : Int)
    (h : (clients.map client_info_t.socket_fd).Nodup) :
    (fd ∉ clients.map client_info_t.socket_fd → remove_client clients fd = clients) ∧
    remove_client (remove_client clients fd) fd = remove_client clients fd := by
  refine ⟨fun habs => remove_client_of_not_mem habs, ?_⟩
  induction clients with
  | nil => rfl
  | cons c rest ih =>
    simp only [List.map_cons, List.nodup_cons] at h
    by_cases hc : c.socket_fd = fd
    · rw [remove_client, if_pos hc]
      exact remove_client_of_not_mem (hc ▸ h.1)
    · rw [remove_client, if_neg hc, remove_client, if_neg hc, ih h.2]

/-- Witness for C7 at a concrete two-entry registry. -/
theorem C7_unregister_idempotent_witness :
    ([⟨4, "alice".data, 1⟩, ⟨5, "bob".data, 1⟩].map client_info_t.socket_fd).Nodup ∧
    remove_client (remove_client [⟨4, "alice".data, 1⟩, ⟨5, "bob".data, 1⟩] 4) 4 =
      remove_client [⟨4, "alice".data, 1⟩, ⟨5, "bob".data, 1⟩] 4 :=
  ⟨by decide,
   (C7_unregister_idempotent [⟨4, "alice".data, 1⟩, ⟨5, "bob".data, 1⟩] 4 (by decide)).2⟩

/-! ## C5 -/

/-- C5: when authenticated client bob (socket 5) sends `DISCONNECT:bob`,
the handler broadcasts the leave notification to every currently
registered socket (including bob's own, which is removed only
afterwards) and removes bob's entry, shrinking the registry from 2 to 1;
but it writes nothing to bob's socket alone — in particular the
`DISCONNECT_ACK` frame defined and documented in protocol.h is never
sent before the socket is closed. -/
theorem C5_disconnect_handshake :
    client_loop 5 "bob".data [⟨4, "alice".data, 1⟩, ⟨5, "bob".data, 1⟩] initial_queue
        ["DISCONNECT:bob\n".data] =
      ([ServerEvent.broadcast [4, 5] "NOTIFY:bob left the chat\n".data],
       [⟨4, "alice".data, 1⟩], initial_queue) ∧
    ServerEvent.toClient (DISCONNECT_ACK ++ ['\n']) ∉
      (client_loop 5 "bob".data [⟨4, "alice".data, 1⟩, ⟨5, "bob".data, 1⟩] initial_queue
        ["DISCONNECT:bob\n".data]).1 := by
  decide

/-! ## C9 -/

/-- C9: registration is NOT one critical section: `username_exists` and
`add_client` lock the registry mutex separately, so two concurrent auth
attempts for the same username can interleave check-check-insert-insert;
in that schedule both succeed and the registry ends with two entries
whose usernames are both "alice". -/
theorem C9_registration_race :
    run_sched [] [⟨4, "alice".data, .toCheck⟩, ⟨5, "alice".data, .toCheck⟩] [0, 1, 0, 1] =
      ([⟨4, "alice".data, 1⟩, ⟨5, "alice".data, 1⟩],
       [⟨4, "alice".data, .done true⟩, ⟨5, "alice".data, .done true⟩]) ∧
    ¬ ((run_sched [] [⟨4, "alice".data, .toCheck⟩, ⟨5, "alice".data, .toCheck⟩]
          [0, 1, 0, 1]).1.map client_info_t.username).Nodup := by
  constructor
  · decide
  · decide

/-! ## C8 counterexample -/

/-- C8 fails as stated: the chat path performs no content re-check
before queue insertion.  Handed a message whose content is empty — which
`validate_message_content` rejects — the core enqueues it unchanged. -/
theorem C8_no_content_recheck :
    validate_message_content ([] : CStr) = false ∧
    queue_to_list (handle_chat_frame "alice".data initial_queue
        ⟨MSG_TYPE_MESSAGE, "bob".data, []⟩) =
      [⟨MSG_TYPE_MESSAGE, "alice".data, []⟩] := by
  constructor
  · decide
  · decide

/-! ## Registry invariant (for C1 and C8) -/

/-- Invariant of the sequential registry: usernames are pairwise
distinct and every registered username passed validation. -/
def RegistryInv (clients : List client_info_t) : Prop :=
  (clients.map client_info_t.username).Nodup ∧
    ∀ c ∈ clients, validate_username c.username = true

/-- `auth_step` either leaves the registry unchanged or appends exactly
one entry whose username parsed from an AUTH frame, validated, and was
not yet registered. -/
theorem auth_step_registry_cases (clients : List client_info_t) (fd : Int) (buf : CStr) :
    (auth_step clients fd buf).2.1 = clients ∨
    ∃ m, parse_message buf = some m ∧ m.type = MSG_TYPE_AUTH ∧
      validate_username m.sender = true ∧ username_exists clients m.sender = false ∧
      (auth_step clients fd buf).2.1 = clients ++ [⟨fd, m.sender, 1⟩] := by
  unfold auth_step
  cases hp : parse_message buf with
  | none => exact Or.inl rfl
  | some m =>
    by_cases h1 : m.type = MSG_TYPE_AUTH
    · by_cases h2 : validate_username m.sender = true
      · by_cases h3 : username_exists clients m.sender = true
        · left
          simp [h1, h2, h3]
        · by_cases h4 : MAX_CLIENTS ≤ clients.length
          · left
            simp [h1, h2, h3, add_client, h4]
          · right
            refine ⟨m, rfl, h1, h2, Bool.not_eq_true _ ▸ h3, ?_⟩
            simp [h1, h2, h3, add_client, h4, take_of_validate h2]
      · left
        simp [h1, h2]
    · left
      simp [h1]

theorem RegistryInv_auth (clients : List client_info_t) (fd : Int) (buf : CStr)
    (h : RegistryInv clients) : RegistryInv (auth_step clients fd buf).2.1 := by
  rcases auth_step_registry_cases clients fd buf with heq | ⟨m, _, _, hv, hex, heq⟩
  · rw [heq]
    exact h
  · rw [heq]
    have hnotin : m.sender ∉ clients.map client_info_t.username := by
      intro hin
      rcases List.mem_map.1 hin with ⟨c, hc, hcu⟩
      have : username_exists clients m.sender = true := by
        unfold username_exists
        rw [List.any_eq_true]
        exact ⟨c, hc, by simp [hcu]⟩
      rw [this] at hex
      cases hex
    constructor
    · rw [List.map_append]
      simp [List.nodup_append, h.1, hnotin]
    · intro c hc
      rcases List.mem_append.1 hc with hc | hc
      · exact h.2 c hc
      · rw [List.mem_singleton.1 hc]
        exact hv

theorem RegistryInv_remove (clients : List client_info_t) (fd : Int)
    (h : RegistryInv clients) : RegistryInv (remove_client clients fd) := by
  have hs := remove_client_sublist clients fd
  exact ⟨h.1.sublist (hs.map client_info_t.username), fun c hc => h.2 c (hs.subset hc)⟩

theorem RegistryInv_ops (ops : List RegistryOp) :
    ∀ clients, RegistryInv clients → RegistryInv (run_registry_ops clients ops) := by
  induction ops with
  | nil => exact fun clients h => h
  | cons op rest ih =>
    intro clients h
    rw [run_registry_ops, List.foldl_cons]
    cases op with
    | auth fd buf => exact ih _ (RegistryInv_auth clients fd buf h)
    | disconnect fd => exact ih _ (RegistryInv_remove clients fd h)

theorem RegistryInv_reachable (ops : List RegistryOp) :
    RegistryInv (run_registry_ops [] ops) :=
  RegistryInv_ops ops [] ⟨List.nodup_nil, by simp⟩

/-! ## C1 -/

/-- C1: in every registry state reachable by a sequence of
register/unregister operations from the empty registry, usernames are
pairwise distinct; and an auth attempt whose username equals that of a
currently registered client gets the duplicate-username failure and
leaves the registry unchanged. -/
theorem C1_username_uniqueness :
    (∀ ops, ((run_registry_ops [] ops).map client_info_t.username).Nodup) ∧
    (∀ clients fd buf m c, RegistryInv clients → parse_message buf = some m →
        m.type = MSG_TYPE_AUTH → c ∈ clients → m.sender = c.username →
        auth_step clients fd buf = (.duplicate, clients, AUTH_FAILED ++ ['\n'])) := by
  constructor
  · exact fun ops => (RegistryInv_reachable ops).1
  · intro clients fd buf m c hinv hp ht hmem hsend
    have hv : validate_username m.sender = true := hsend ▸ hinv.2 c hmem
    have hex : username_exists clients m.sender = true := by
      unfold username_exists
      rw [List.any_eq_true]
      exact ⟨c, hmem, by simp [hsend]⟩
    unfold auth_step
    simp [hp, ht, hv, hex]

/-- Witness for C1's duplicate branch: with alice registered, a second
`AUTH:alice` is refused with the duplicate-username failure and the
registry is unchanged. -/
theorem C1_username_uniqueness_witness :
    RegistryInv [⟨4, "alice".data, 1⟩] ∧
    auth_step [⟨4, "alice".data, 1⟩] 5 "AUTH:alice\n".data =
      (.duplicate, [⟨4, "alice".data, 1⟩], AUTH_FAILED ++ ['\n']) :=
  ⟨⟨by decide, by decide⟩,
   C1_username_uniqueness.2 [⟨4, "alice".data, 1⟩] 5 "AUTH:alice\n".data
     ⟨MSG_TYPE_AUTH, "alice".data, []⟩ ⟨4, "alice".data, 1⟩
     ⟨by decide, by decide⟩ (by decide) rfl (by decide) rfl⟩

/-- Witness for C3's capacity branch: at MAX_CLIENTS entries,
`add_client` returns -1 and the registry is untouched. -/
theorem C3_failed_auth_no_mutation_witness :
    (List.replicate 50 (⟨0, [], 1⟩ : client_info_t)).length = MAX_CLIENTS ∧
    add_client (List.replicate 50 (⟨0, [], 1⟩ : client_info_t)) 9 "alice".data =
      (-1, List.replicate 50 (⟨0, [], 1⟩ : client_info_t)) :=
  ⟨by decide,
   C3_failed_auth_no_mutation.1 (List.replicate 50 ⟨0, [], 1⟩) 9 "alice".data (by decide)⟩

/-! ## Circular-buffer lemmas (for C2) -/

theorem queue_to_list_length (q : message_queue_t) :
    (queue_to_list q).length = q.count := by
  simp [queue_to_list]

theorem QueueWF_init (q : message_queue_t) (hlen : q.messages.length = QUEUE_SIZE) :
    QueueWF (init_message_queue q) :=
  ⟨hlen, by show (0 : Nat) < QUEUE_SIZE; decide, by show (0 : Nat) ≤ QUEUE_SIZE; decide, rfl⟩

/-- A successful enqueue on a non-full well-formed queue returns 0,
preserves well-formedness, bumps the count, and appends the message at
the tail end of the abstract FIFO contents. -/
theorem enqueue_spec (q : message_queue_t) (m : Message) (hwf : QueueWF q)
    (hlt : q.count < QUEUE_SIZE) :
    (enqueue_message q m).1 = 0 ∧ (enqueue_message q m).2.count = q.count + 1 ∧
      QueueWF (enqueue_message q m).2 ∧
      queue_to_list (enqueue_message q m).2 = queue_to_list q ++ [m] := by
  obtain ⟨hlen, htail, hcount, hhead⟩ := hwf
  have h100 : QUEUE_SIZE = 100 := rfl
  have htail' : q.tail < 100 := h100 ▸ htail
  have hlt' : q.count < 100 := h100 ▸ hlt
  have hfull : is_queue_full q = false := by
    simp only [is_queue_full, decide_eq_false_iff_not]
    omega
  have henq : enqueue_message q m =
      (0, ⟨q.messages.set q.head m, (q.head + 1) % QUEUE_SIZE, q.tail, q.count + 1⟩) := by
    unfold enqueue_message
    rw [hfull]
    simp
  rw [henq]
  refine ⟨rfl, rfl, ⟨by simp [hlen], htail, by show q.count + 1 ≤ QUEUE_SIZE; omega, ?_⟩, ?_⟩
  · show (q.head + 1) % QUEUE_SIZE = (q.tail + (q.count + 1)) % QUEUE_SIZE
    rw [hhead, h100]
    omega
  · show queue_to_list ⟨q.messages.set q.head m, (q.head + 1) % QUEUE_SIZE,
        q.tail, q.count + 1⟩ = queue_to_list q ++ [m]
    unfold queue_to_list
    dsimp only
    rw [List.range_succ, List.map_append, List.map_cons, List.map_nil]
    congr 1
    · apply List.map_congr_left
      intro i hi
      have hi' : i < q.count := List.mem_range.1 hi
      rw [List.getD_eq_getElem?_getD, List.getD_eq_getElem?_getD, List.getElem?_set_ne]
      rw [hhead, h100]
      omega
    · have hidx : (q.tail + q.count) % QUEUE_SIZE = q.head := hhead.symm
      rw [List.getD_eq_getElem?_getD, hidx, List.getElem?_set_self (by
        rw [hlen, hhead, h100]
        omega)]
      rfl

/-- A dequeue on a well-formed queue whose abstract contents start with
`m` returns `m`, preserves well-formedness, and leaves the rest. -/
theorem dequeue_spec (q : message_queue_t) (m : Message) (rest : List Message)
    (hwf : QueueWF q) (h : queue_to_list q = m :: rest) :
    ∃ q', dequeue_message q = some (m, q') ∧ QueueWF q' ∧ queue_to_list q' = rest := by
  obtain ⟨hlen, htail, hcount, hhead⟩ := hwf
  have h100 : QUEUE_SIZE = 100 := rfl
  have hcpos : 0 < q.count := by
    have hl := congrArg List.length h
    rw [queue_to_list_length] at hl
    simp at hl
    omega
  obtain ⟨n, hn⟩ : ∃ n, q.count = n + 1 := ⟨q.count - 1, by omega⟩
  have htail' : q.tail < 100 := h100 ▸ htail
  rw [queue_to_list, hn, List.range_succ_eq_map, List.map_cons, List.map_map] at h
  injection h with h1 h2
  have hempty : is_queue_empty q = false := by
    simp only [is_queue_empty, decide_eq_false_iff_not]
    omega
  refine ⟨⟨q.messages, q.head, (q.tail + 1) % QUEUE_SIZE, q.count - 1⟩, ?_, ⟨hlen, ?_, ?_, ?_⟩, ?_⟩
  · unfold dequeue_message
    rw [hempty]
    simp only [Bool.false_eq_true, if_false, Option.some.injEq]
    have hidx : (q.tail + 0) % QUEUE_SIZE = q.tail := by
      rw [h100]
      omega
    rw [hidx] at h1
    rw [h1]
  · show (q.tail + 1) % QUEUE_SIZE < QUEUE_SIZE
    rw [h100]
    omega
  · show q.count - 1 ≤ QUEUE_SIZE
    omega
  · show q.head = ((q.tail + 1) % QUEUE_SIZE + (q.count - 1)) % QUEUE_SIZE
    rw [hhead, hn, h100]
    omega
  · show queue_to_list ⟨q.messages, q.head, (q.tail + 1) % QUEUE_SIZE, q.count - 1⟩ = rest
    unfold queue_to_list
    dsimp only
    rw [← h2]
    have hc1 : q.count - 1 = n := by omega
    rw [hc1]
    apply List.map_congr_left
    intro i _
    simp only [Function.comp_apply]
    congr 1
    rw [h100]
    omega

theorem enqueue_all_spec (msgs : List Message) :
    ∀ q : message_queue_t, QueueWF q → q.count + msgs.length ≤ QUEUE_SIZE →
    ∃ q', enqueue_all q msgs = some q' ∧ QueueWF q' ∧
      queue_to_list q' = queue_to_list q ++ msgs := by
  induction msgs with
  | nil => exact fun q hwf _ => ⟨q, rfl, hwf, by simp [enqueue_all]⟩
  | cons m rest ih =>
    intro q hwf hle
    simp only [List.length_cons] at hle
    obtain ⟨h0, hcnt, hwf', hlist⟩ := enqueue_spec q m hwf (by omega)
    obtain ⟨q', heq, hwf'', hlist'⟩ := ih (enqueue_message q m).2 hwf' (by omega)
    refine ⟨q', ?_, hwf'', ?_⟩
    · simp only [enqueue_all, h0, if_pos]
      exact heq
    · rw [hlist', hlist, List.append_assoc, List.singleton_append]

theorem drain_spec (l : List Message) :
    ∀ q : message_queue_t, QueueWF q → queue_to_list q = l →
      drain q l.length = some l := by
  induction l with
  | nil => exact fun q _ _ => rfl
  | cons m rest ih =>
    intro q hwf h
    obtain ⟨q', hdq, hwf', hlist⟩ := dequeue_spec q m rest hwf h
    simp only [List.length_cons, drain, hdq]
    rw [ih q' hwf' hlist]
    rfl

theorem run_queue_op_count (q : message_queue_t) (op : QueueOp)
    (h : q.count ≤ QUEUE_SIZE) : (run_queue_op q op).count ≤ QUEUE_SIZE := by
  cases op with
  | enq m =>
    unfold run_queue_op enqueue_message
    by_cases hf : is_queue_full q = true
    · simp only [hf, if_true]
      exact h
    · rw [Bool.not_eq_true] at hf
      simp only [hf, Bool.false_eq_true, if_false]
      simp only [is_queue_full, decide_eq_false_iff_not] at hf
      show q.count + 1 ≤ QUEUE_SIZE
      omega
  | deq =>
    unfold run_queue_op dequeue_message
    by_cases he : is_queue_empty q = true
    · simp only [he, if_true]
      exact h
    · rw [Bool.not_eq_true] at he
      simp only [he, Bool.false_eq_true, if_false]
      show q.count - 1 ≤ QUEUE_SIZE
      omega

theorem run_queue_ops_count (ops : List QueueOp) :
    ∀ q : message_queue_t, q.count ≤ QUEUE_SIZE →
      (run_queue_ops q ops).count ≤ QUEUE_SIZE := by
  induction ops with
  | nil => exact fun q h => h
  | cons op rest ih =>
    intro q h
    rw [run_queue_ops, List.foldl_cons]
    exact ih _ (run_queue_op_count q op h)

/-! ## C2 -/

/-- C2: starting from a freshly initialised queue, enqueueing
k ≤ QUEUE_SIZE = 100 messages all succeeds and draining k times returns
exactly those messages in order; an enqueue on a queue whose count is
QUEUE_SIZE returns -1 and leaves the queue unmodified; and the count
stays at most QUEUE_SIZE under every sequence of enqueue/dequeue
operations (it is a Nat, hence never below 0). -/
theorem C2_bounded_fifo :
    (∀ q msgs, q.messages.length = QUEUE_SIZE → msgs.length ≤ QUEUE_SIZE →
        ∃ q', enqueue_all (init_message_queue q) msgs = some q' ∧
          drain q' msgs.length = some msgs) ∧
    (∀ q m, q.count = QUEUE_SIZE → enqueue_message q m = (-1, q)) ∧
    (∀ q ops, q.count ≤ QUEUE_SIZE → (run_queue_ops q ops).count ≤ QUEUE_SIZE) := by
  refine ⟨?_, ?_, ?_⟩
  · intro q msgs hlen hcap
    have hwf := QueueWF_init q hlen
    obtain ⟨q', henq, hwf', hlist⟩ :=
      enqueue_all_spec msgs (init_message_queue q) hwf
        (by show 0 + msgs.length ≤ QUEUE_SIZE; omega)
    refine ⟨q', henq, ?_⟩
    have hinit : queue_to_list (init_message_queue q) = [] := rfl
    rw [hinit, List.nil_append] at hlist
    exact drain_spec msgs q' hwf' hlist
  · intro q m h
    unfold enqueue_message is_queue_full
    simp [h]
  · exact fun q ops h => run_queue_ops_count ops q h

/-- Witness for C2: a queue with stale indices is initialised, three
messages go in and come back out in order. -/
theorem C2_bounded_fifo_witness :
    (message_queue_t.mk (List.replicate 100 default) 3 7 5).messages.length = QUEUE_SIZE ∧
    ([⟨MSG_TYPE_MESSAGE, "alice".data, "one".data⟩,
      ⟨MSG_TYPE_MESSAGE, "bob".data, "two".data⟩,
      ⟨MSG_TYPE_MESSAGE, "alice".data, "three".data⟩] : List Message).length ≤ QUEUE_SIZE ∧
    ∃ q', enqueue_all
        (init_message_queue (message_queue_t.mk (List.replicate 100 default) 3 7 5))
        [⟨MSG_TYPE_MESSAGE, "alice".data, "one".data⟩,
         ⟨MSG_TYPE_MESSAGE, "bob".data, "two".data⟩,
         ⟨MSG_TYPE_MESSAGE, "alice".data, "three".data⟩] = some q' ∧
      drain q' 3 = some
        [⟨MSG_TYPE_MESSAGE, "alice".data, "one".data⟩,
         ⟨MSG_TYPE_MESSAGE, "bob".data, "two".data⟩,
         ⟨MSG_TYPE_MESSAGE, "alice".data, "three".data⟩] :=
  ⟨by decide, by decide,
   C2_bounded_fifo.1 (message_queue_t.mk (List.replicate 100 default) 3 7 5)
     [⟨MSG_TYPE_MESSAGE, "alice".data, "one".data⟩,
      ⟨MSG_TYPE_MESSAGE, "bob".data, "two".data⟩,
      ⟨MSG_TYPE_MESSAGE, "alice".data, "three".data⟩] (by decide) (by decide)⟩

/-! ## strtok / parse_message lemmas (for C8 and C10) -/

theorem takeWhile_append_cons {p : Char → Bool} (s t : CStr) (a : Char)
    (hs : ∀ x ∈ s, p x = true) (ha : p a = false) :
    (s ++ a :: t).takeWhile p = s := by
  induction s with
  | nil => simp [List.takeWhile_cons, ha]
  | cons x s ih =>
    have hx : p x = true := hs x (List.mem_cons_self x s)
    simp [List.takeWhile_cons, hx,
      ih (fun y hy => hs y (List.mem_cons_of_mem x hy))]

theorem dropWhile_append_cons {p : Char → Bool} (s t : CStr) (a : Char)
    (hs : ∀ x ∈ s, p x = true) (ha : p a = false) :
    (s ++ a :: t).dropWhile p = a :: t := by
  induction s with
  | nil => simp [List.dropWhile_cons, ha]
  | cons x s ih =>
    have hx : p x = true := hs x (List.mem_cons_self x s)
    simp [List.dropWhile_cons, hx,
      ih (fun y hy => hs y (List.mem_cons_of_mem x hy))]

/-- `strtok(_, ":")` on a buffer of the shape `token ++ ":" ++ rest`
where the token is non-empty and colon-free yields that token and rest. -/
theorem strtokColon_split (s rest : CStr) (hne : s ≠ []) (hs : ':' ∉ s) :
    strtokColon (s ++ ':' :: rest) = some (s, rest) := by
  unfold strtokColon
  have hdrop : (s ++ ':' :: rest).dropWhile (fun c => c = ':') = s ++ ':' :: rest := by
    cases s with
    | nil => exact absurd rfl hne
    | cons x s' =>
      rw [List.cons_append, List.dropWhile_cons]
      have hx : decide (x = ':') = false := by
        simp only [decide_eq_false_iff_not]
        intro h
        exact hs (h ▸ List.mem_cons_self x s')
      rw [hx]
      simp
  dsimp only
  rw [hdrop, if_neg (by simp)]
  have ht : (s ++ ':' :: rest).takeWhile (fun c => ¬ c = ':') = s :=
    takeWhile_append_cons s rest ':'
      (fun x hx => by
        simp only [decide_eq_true_eq]
        exact fun h => hs (h ▸ hx))
      (by simp)
  have hd : (s ++ ':' :: rest).dropWhile (fun c => ¬ c = ':') = ':' :: rest :=
    dropWhile_append_cons s rest ':'
      (fun x hx => by
        simp only [decide_eq_true_eq]
        exact fun h => hs (h ▸ hx))
      (by simp)
  rw [ht, hd]
  simp

theorem strtokRest_eq {s c r : CStr} (h : strtokRest s = some (c, r)) :
    c = s ∧ s ≠ [] := by
  unfold strtokRest at h
  by_cases hs : s = []
  · rw [if_pos hs] at h
    cases h
  · rw [if_neg hs] at h
    have := Option.some.inj h
    exact ⟨(Prod.mk.injEq _ _ _ _ ▸ this).1.symm, hs⟩

/-- The content field parse_message builds for a MSG frame (a non-empty
token truncated to MAX_MESSAGE - 1 bytes) always passes
`validate_message_content`. -/
theorem validate_take_content {c : CStr} (hc : c ≠ []) :
    validate_message_content (c.take (MAX_MESSAGE - 1)) = true := by
  have h256 : MAX_MESSAGE = 256 := rfl
  have h1 : (c.take (MAX_MESSAGE - 1)).length ≤ MAX_MESSAGE - 1 := by
    rw [List.length_take]
    omega
  have h2 : (c.take (MAX_MESSAGE - 1)).length ≠ 0 := by
    intro h0
    rcases List.take_eq_nil_iff.1 (List.length_eq_zero.1 h0) with h | h
    · rw [h256] at h
      omega
    · exact hc h
  unfold validate_message_content
  rw [if_neg]
  simp only [Bool.or_eq_true, decide_eq_true_eq, not_or]
  rw [h256] at h1 ⊢
  exact ⟨h2, by omega⟩

/-- Every MSG frame that `parse_message` accepts carries content the
codec validates: non-empty and at most MAX_MESSAGE - 1 bytes. -/
theorem parse_MSG_content (raw : CStr) (m : Message) (hp : parse_message raw = some m)
    (ht : m.type = MSG_TYPE_MESSAGE) : validate_message_content m.content = true := by
  unfold parse_message at hp
  dsimp only at hp
  cases hks : strtokColon (chopNewline (raw.take (BUFFER_SIZE - 1))) with
  | none =>
    rw [hks] at hp
    cases hp
  | some p =>
    obtain ⟨token, rest1⟩ := p
    rw [hks] at hp
    dsimp only at hp
    by_cases h1 : token.take 15 = MSG_TYPE_AUTH
    · rw [if_pos h1] at hp
      cases hks2 : strtokColon rest1 with
      | none =>
        rw [hks2] at hp
        cases hp
      | some p2 =>
        obtain ⟨sender, r⟩ := p2
        rw [hks2] at hp
        have hm := Option.some.inj hp
        rw [← hm] at ht
        rw [h1] at ht
        dsimp only at ht
        exact absurd ht (by decide)
    · rw [if_neg h1] at hp
      by_cases h2 : token.take 15 = MSG_TYPE_MESSAGE
      · rw [if_pos h2] at hp
        cases hks2 : strtokColon rest1 with
        | none =>
          rw [hks2] at hp
          cases hp
        | some p2 =>
          obtain ⟨sender, rest2⟩ := p2
          rw [hks2] at hp
          dsimp only at hp
          cases hks3 : strtokRest rest2 with
          | none =>
            rw [hks3] at hp
            cases hp
          | some p3 =>
            obtain ⟨content, r⟩ := p3
            rw [hks3] at hp
            have hm := Option.some.inj hp
            obtain ⟨hcnn, _⟩ := strtokRest_eq hks3
            rw [← hm]
            exact validate_take_content (hcnn ▸ (strtokRest_eq hks3).2)
      · rw [if_neg h2] at hp
        by_cases h3 : token.take 15 = MSG_TYPE_NOTIFY
        · rw [if_pos h3] at hp
          cases hks3 : strtokRest rest1 with
          | none =>
            rw [hks3] at hp
            cases hp
          | some p3 =>
            rw [hks3] at hp
            have hm := Option.some.inj hp
            rw [← hm] at ht
            rw [h3] at ht
            dsimp only at ht
            exact absurd ht (by decide)
        · rw [if_neg h3] at hp
          by_cases h4 : token.take 15 = MSG_TYPE_ERROR
          · rw [if_pos h4] at hp
            cases hks3 : strtokRest rest1 with
            | none =>
              rw [hks3] at hp
              cases hp
            | some p3 =>
              rw [hks3] at hp
              have hm := Option.some.inj hp
              rw [← hm] at ht
              rw [h4] at ht
              dsimp only at ht
              exact absurd ht (by decide)
          · rw [if_neg h4] at hp
            by_cases h5 : token.take 15 = MSG_TYPE_DISCONNECT
            · rw [if_pos h5] at hp
              cases hks2 : strtokColon rest1 with
              | none =>
                rw [hks2] at hp
                cases hp
              | some p2 =>
                obtain ⟨sender, r⟩ := p2
                rw [hks2] at hp
                have hm := Option.some.inj hp
                rw [← hm] at ht
                rw [h5] at ht
                dsimp only at ht
                exact absurd ht (by decide)
            · rw [if_neg h5] at hp
              have hm := Option.some.inj hp
              rw [← hm] at ht
              exact absurd ht h2

/-- `parse_message` only ever examines the first BUFFER_SIZE - 1 bytes
of its input (the strncpy into the local buffer). -/
theorem parse_message_take (raw : CStr) :
    parse_message raw = parse_message (raw.take (BUFFER_SIZE - 1)) := by
  unfold parse_message
  rw [List.take_take, Nat.min_self]

/-- A well-shaped MSG frame with a non-empty colon-free sender and
non-empty content parses successfully, with the sender truncated to
MAX_USERNAME - 1 and the content truncated to MAX_MESSAGE - 1 bytes,
however long those fields are. -/
theorem parse_MSG (s c : CStr) (hsne : s ≠ []) (hs : ':' ∉ s) (hcne : c ≠ [])
    (hlen : ("MSG:".data ++ s ++ [':'] ++ c ++ ['\n']).length ≤ BUFFER_SIZE - 1) :
    parse_message ("MSG:".data ++ s ++ [':'] ++ c ++ ['\n']) =
      some ⟨MSG_TYPE_MESSAGE, s.take (MAX_USERNAME - 1), c.take (MAX_MESSAGE - 1)⟩ := by
  unfold parse_message
  dsimp only
  rw [List.take_of_length_le hlen]
  have hchop : chopNewline ("MSG:".data ++ s ++ [':'] ++ c ++ ['\n']) =
      "MSG:".data ++ s ++ [':'] ++ c := by
    unfold chopNewline
    rw [List.getLast?_concat, if_pos rfl]
    exact List.dropLast_concat
  rw [hchop]
  have hshape : "MSG:".data ++ s ++ [':'] ++ c = ['M', 'S', 'G'] ++ ':' :: (s ++ ':' :: c) := by
    simp [List.append_assoc]
  rw [hshape, strtokColon_split ['M', 'S', 'G'] (s ++ ':' :: c) (by simp) (by decide)]
  dsimp only
  rw [if_neg (by decide), if_pos (by decide)]
  rw [strtokColon_split s c hsne hs]
  dsimp only
  have hrest : strtokRest c = some (c, []) := by
    unfold strtokRest
    rw [if_neg hcne]
  rw [hrest]
  rfl

/-! ## C10 -/

/-- C10: `parse_message` never fails because a field is over-long: it
examines at most BUFFER_SIZE - 1 = 1023 bytes of the raw input, and a
MSG frame with arbitrarily long sender/content parses successfully with
the sender silently truncated to 31 bytes and the content to 255 bytes
rather than being rejected. -/
theorem C10_parse_truncates :
    (∀ raw, parse_message raw = parse_message (raw.take (BUFFER_SIZE - 1))) ∧
    (∀ s c, s ≠ [] → ':' ∉ s → c ≠ [] →
        ("MSG:".data ++ s ++ [':'] ++ c ++ ['\n']).length ≤ BUFFER_SIZE - 1 →
        parse_message ("MSG:".data ++ s ++ [':'] ++ c ++ ['\n']) =
          some ⟨MSG_TYPE_MESSAGE, s.take (MAX_USERNAME - 1), c.take (MAX_MESSAGE - 1)⟩) :=
  ⟨parse_message_take, fun s c h1 h2 h3 h4 => parse_MSG s c h1 h2 h3 h4⟩

set_option maxRecDepth 4000 in
/-- Witness for C10: a chat frame whose content is 300 bytes parses
successfully with the content truncated to 255 bytes. -/
theorem C10_parse_truncates_witness :
    ("alice".data ≠ ([] : CStr)) ∧ ':' ∉ "alice".data ∧
    (List.replicate 300 'x' ≠ ([] : CStr)) ∧
    ("MSG:".data ++ "alice".data ++ [':'] ++ List.replicate 300 'x' ++ ['\n']).length ≤
      BUFFER_SIZE - 1 ∧
    parse_message ("MSG:".data ++ "alice".data ++ [':'] ++ List.replicate 300 'x' ++ ['\n']) =
      some ⟨MSG_TYPE_MESSAGE, "alice".data, List.replicate 255 'x'⟩ :=
  ⟨by decide, by decide, by decide, by decide,
   C10_parse_truncates.2 "alice".data (List.replicate 300 'x')
     (by decide) (by decide) (by decide) (by decide)⟩

/-! ## C8 amended -/

/-- C8 amended: the core does validate the username before registry
insertion, so every entry ever registered carries a validated username;
the chat path performs no content-length re-check before enqueueing, but
every MSG frame `parse_message` accepts has non-empty content truncated
to at most MAX_MESSAGE - 1 bytes, and the chat path enqueues it with
only the sender field rewritten, so every message that reaches the queue
through the codec satisfies the codec's content bound. -/
theorem C8_defensive_recheck_amended :
    (∀ ops c, c ∈ run_registry_ops [] ops → validate_username c.username = true) ∧
    (∀ raw m, parse_message raw = some m → m.type = MSG_TYPE_MESSAGE →
        validate_message_content m.content = true ∧
        ∀ u queue, handle_chat_frame u queue m =
          (enqueue_message queue { m with sender := u.take (MAX_USERNAME - 1) }).2) := by
  constructor
  · exact fun ops c hc => (RegistryInv_reachable ops).2 c hc
  · intro raw m hp ht
    exact ⟨parse_MSG_content raw m hp ht, fun u queue => rfl⟩

/-- Witness for C8's amended claim at concrete inputs. -/
theorem C8_defensive_recheck_amended_witness :
    (⟨4, "alice".data, 1⟩ : client_info_t) ∈
      run_registry_ops [] [RegistryOp.auth 4 "AUTH:alice\n".data] ∧
    validate_username "alice".data = true ∧
    parse_message "MSG:evil:hi\n".data = some ⟨MSG_TYPE_MESSAGE, "evil".data, "hi".data⟩ ∧
    validate_message_content "hi".data = true ∧
    handle_chat_frame "bob".data initial_queue ⟨MSG_TYPE_MESSAGE, "evil".data, "hi".data⟩ =
      (enqueue_message initial_queue ⟨MSG_TYPE_MESSAGE, "bob".data, "hi".data⟩).2 :=
  ⟨by decide,
   C8_defensive_recheck_amended.1 [RegistryOp.auth 4 "AUTH:alice\n".data]
     ⟨4, "alice".data, 1⟩ (by decide),
   by decide,
   (C8_defensive_recheck_amended.2 "MSG:evil:hi\n".data
     ⟨MSG_TYPE_MESSAGE, "evil".data, "hi".data⟩ (by decide) rfl).1,
   (C8_defensive_recheck_amended.2 "MSG:evil:hi\n".data
     ⟨MSG_TYPE_MESSAGE, "evil".data, "hi".data⟩ (by decide) rfl).2 "bob".data initial_queue⟩

end ChatRoom
